import Mathlib

/-!
Verification of the SWIPE-THEM core engines: the newsletter classification
scorer (`src/lib/detection/newsletter.ts`), the unsubscribe fallback chain
(`unsubscribe.ts`), the block / domain-nuke engine (`block.ts`), the action
and undo orchestrator (`src/swipe-app/lib/engines/actions.ts`) and the
adaptive swipe buffer (`src/swipe-app/lib/engines/buffer.ts`).

The TypeScript code is shallowly embedded: every provider / network call is
abstracted by an oracle parameter recording its outcome, `Date.now()` becomes
an explicit integer parameter, the process-wide undo table becomes an explicit
association list threaded through the functions, and JavaScript numbers
(which only ever hold small decimal constants here) become rationals.
-/

namespace SwipeThem

/-! ## String helpers with JavaScript semantics -/

/-- `startsWithL hay pat` is true when `pat` is a prefix of `hay` (character lists). -/
def startsWithL : List Char → List Char → Bool
  | _, [] => true
  | [], _ :: _ => false
  | h :: hs, p :: ps => (h == p) && startsWithL hs ps

/-- `includesL hay pat` models JavaScript `hay.includes(pat)`:
`pat` occurs contiguously somewhere inside `hay`. -/
def includesL : List Char → List Char → Bool
  | [], pat => pat.isEmpty
  | h :: t, pat => startsWithL (h :: t) pat || includesL t pat

/-- Lower-cased character list of a string (JS `toLowerCase` on the ASCII
constants used by the code). -/
def lowerS (s : String) : List Char := s.data.map Char.toLower

/-- Lower-cased string. -/
def lowerStr (s : String) : String := String.mk (lowerS s)

/-- JavaScript truthiness of an optional string: present and non-empty. -/
def strTruthy : Option String → Bool
  | some s => !s.isEmpty
  | none => false

/-- `hay.includes(pat)` where `hay` is a char list and `pat` a string. -/
def includesS (hay : List Char) (pat : String) : Bool := includesL hay pat.data

/-- The part of `s` before the first `@` (JS `s.split("@")[0]`). -/
def localPart (s : String) : List Char := s.data.takeWhile (fun c => c != '@')

/-- The part of `s` between the first and second `@` (JS `s.split("@")[1]`),
or `none` when `s` has no `@`. -/
def splitAtSecond (cs : List Char) : Option (List Char) :=
  match cs.dropWhile (fun c => c != '@') with
  | _ :: rest => some (rest.takeWhile (fun c => c != '@'))
  | [] => none

/-- Remove the first `>` character (JS `s.replace(">", "")`). -/
def removeFirstGt : List Char → List Char
  | [] => []
  | c :: cs => if c == '>' then cs else c :: removeFirstGt cs

def isAsciiAlpha (c : Char) : Bool := (('a' ≤ c) && (c ≤ 'z')) || (('A' ≤ c) && (c ≤ 'Z'))

def isUpperA (c : Char) : Bool := ('A' ≤ c) && (c ≤ 'Z')

def isLowerA (c : Char) : Bool := ('a' ≤ c) && (c ≤ 'z')

/-- ASCII whitespace recognized by the JS `\s` class (the inputs here are ASCII). -/
def jsSpace (c : Char) : Bool :=
  c == ' ' || c == '\t' || c == '\n' || c == '\x0d' || c == '\x0b' || c == '\x0c'

/-- Full match of the regex `/^[a-z]+[._][a-z]+$/i`: letters, one dot or
underscore separator, letters. -/
def dotNameMatch (cs : List Char) : Bool :=
  (List.range cs.length).any (fun i =>
    match cs.drop i with
    | c :: b =>
      ((c == '.') || (c == '_')) && !(cs.take i).isEmpty && (cs.take i).all isAsciiAlpha
        && !b.isEmpty && b.all isAsciiAlpha
    | [] => false)

/-- Full match of the regex `/^([A-Z][a-z]+)\s+([A-Z][a-z]+)$/` ("First Last").
The character classes are disjoint, so the greedy scan equals the regex. -/
def firstLastMatch (cs : List Char) : Bool :=
  match cs with
  | u1 :: r1 =>
    isUpperA u1 &&
      (let p1 := r1.span isLowerA
       !p1.1.isEmpty &&
         (let p2 := p1.2.span jsSpace
          !p2.1.isEmpty &&
            (match p2.2 with
             | u2 :: r3 =>
               isUpperA u2 && (let p3 := r3.span isLowerA; !p3.1.isEmpty && p3.2.isEmpty)
             | [] => false)))
  | [] => false

/-! ## Data model (`types.ts`)

Fields of `NormalizedEmail` that none of the verified components read
(`provider`, `preview`, `receivedAt`, `timestamp`, `isRead`, `size`,
`metadata`) are omitted. -/

inductive EmailCategory
  | newsletter | promo | social | transactional | personal | unknown
  deriving DecidableEq, Repr

structure ListUnsub where
  http : Option String
  mailto : Option String
  deriving DecidableEq, Repr

structure EmailHeaders where
  precedence : Option String := none
  returnPath : Option String := none
  xMailer : Option String := none
  xCampaign : Option String := none
  xNewsletter : Option String := none
  xList : Option String := none
  xSgEid : Option String := none
  xMailgunSid : Option String := none
  xMailchimp : Option String := none
  deriving DecidableEq, Repr

structure NormalizedEmail where
  id : String
  providerId : String := ""
  sender : String
  senderName : Option String := none
  senderDomain : String
  subject : String := ""
  listUnsubscribe : ListUnsub := { http := none, mailto := none }
  category : EmailCategory := .unknown
  labels : List String := []
  headers : EmailHeaders := {}
  deriving DecidableEq, Repr

/-! ## Fixed vocabularies (`newsletter.ts`, `types.ts`) -/

def MARKETING_DOMAINS : List String :=
  ["mailchimp.com", "sendgrid.net", "mailgun.org", "constantcontact.com",
   "substack.com", "campaignmonitor.com", "convertkit.com", "klaviyo.com",
   "mailerlite.com", "sendinblue.com", "drip.com", "beehiiv.com",
   "getresponse.com", "activecampaign.com", "aweber.com", "mailjet.com",
   "sparkpost.com", "postmarkapp.com", "mandrill.com", "sailthru.com",
   "braze.com", "iterable.com", "customer.io", "intercom.com"]

def TRANSACTIONAL_PATTERNS : List String :=
  ["noreply", "no-reply", "do-not-reply", "donotreply", "receipt", "order",
   "invoice", "confirmation", "shipping", "tracking", "security", "verify",
   "verification", "password", "reset", "account", "billing", "payment",
   "support", "help", "service"]

def transactionalSubjectPatterns : List String :=
  ["order confirmation", "shipping confirmation", "your receipt", "your order",
   "password reset", "verify your", "confirm your", "security alert",
   "login attempt", "payment received", "invoice", "statement", "appointment",
   "reservation", "booking confirmation", "flight", "itinerary"]

def personalDomains : List String :=
  ["gmail.com", "yahoo.com", "hotmail.com", "outlook.com", "icloud.com",
   "aol.com", "protonmail.com", "zoho.com", "fastmail.com"]

def DOMAIN_SAFETY_neverNuke : List String :=
  ["google.com", "gmail.com", "apple.com", "icloud.com", "microsoft.com",
   "amazon.com", "facebook.com", "meta.com", "twitter.com", "x.com",
   "linkedin.com", "gov", "edu", "mil", "chase.com", "bankofamerica.com",
   "wellsfargo.com", "citibank.com", "usbank.com", "united.com", "delta.com",
   "aa.com", "southwest.com"]

def DOMAIN_SAFETY_caution : List String :=
  ["ebay.com", "etsy.com", "shopify.com", "netflix.com", "spotify.com",
   "hulu.com", "disneyplus.com", "hbomax.com"]

def DOMAIN_SAFETY_safeToNuke : List String :=
  ["mailchimp.com", "sendgrid.net", "mailgun.org", "constantcontact.com",
   "substack.com", "campaignmonitor.com", "convertkit.com", "klaviyo.com",
   "mailerlite.com", "sendinblue.com", "drip.com", "beehiiv.com", "revue.co",
   "buttondown.email", "getresponse.com", "activecampaign.com"]

/-! ## Classification scorer (`newsletter.ts`) -/

/-- `isLikelyPersonalSender` from `newsletter.ts`. -/
def isLikelyPersonalSender (e : NormalizedEmail) : Bool :=
  (personalDomains.contains (lowerStr e.senderDomain)
      && dotNameMatch (localPart e.sender))
    || (match e.senderName with
        | some n => firstLastMatch n.data
        | none => false)

/-- `isTransactional` from `newsletter.ts`: the lower-cased full sender address
or the lower-cased subject contains one of the fixed transactional markers. -/
def isTransactional (e : NormalizedEmail) : Bool :=
  TRANSACTIONAL_PATTERNS.any (fun p => includesS (lowerS e.sender) p)
    || transactionalSubjectPatterns.any (fun p => includesS (lowerS e.subject) p)

/-- Rule 1, `checkListUnsubscribe`: 1.0 when an unsubscribe channel is present. -/
def checkListUnsubscribe (e : NormalizedEmail) : ℚ :=
  if strTruthy e.listUnsubscribe.http || strTruthy e.listUnsubscribe.mailto then 1 else 0

/-- Rule 2, `checkProviderCategory`. -/
def checkProviderCategory (e : NormalizedEmail) : ℚ :=
  if e.labels.contains "CATEGORY_PROMOTIONS" || e.labels.contains "CATEGORY_SOCIAL" then 0.95
  else if e.labels.contains "CATEGORY_UPDATES" then 0.5
  else 0

/-- Rule 3, `checkSenderDomain`: marketing-platform match on the sender domain
(0.9) or on the Return-Path domain (0.85). -/
def checkSenderDomain (e : NormalizedEmail) : ℚ :=
  if MARKETING_DOMAINS.any (fun m => includesS (lowerS e.senderDomain) m) then 0.9
  else
    match e.headers.returnPath with
    | some rp =>
      match splitAtSecond rp.data with
      | some seg =>
        if MARKETING_DOMAINS.any
            (fun m => includesS (removeFirstGt (seg.map Char.toLower)) m) then 0.85
        else 0
      | none => 0
    | none => 0

/-- `analyzeHeaders`: maximum of the triggered per-header weights. -/
def analyzeHeaders (e : NormalizedEmail) : ℚ :=
  let h := e.headers
  let s0 : ℚ := 0
  let s1 := if h.precedence.map lowerStr == some "bulk" then max s0 0.8 else s0
  let s2 := if (match h.xMailer with
                | some m => includesS (lowerS m) "campaign"
                | none => false) then max s1 0.7 else s1
  let s3 := if strTruthy h.xList then max s2 0.75 else s2
  let s4 := if strTruthy h.xCampaign then max s3 0.8 else s3
  let s5 := if strTruthy h.xNewsletter then max s4 0.9 else s4
  let s6 := if strTruthy h.xSgEid then max s5 0.75 else s5
  let s7 := if strTruthy h.xMailgunSid then max s6 0.75 else s6
  let s8 := if strTruthy h.xMailchimp then max s7 0.85 else s7
  s8

structure SenderStats where
  frequencyScore : ℚ
  reputationScore : ℚ
  deriving DecidableEq, Repr

/-- `senderStats?.frequencyScore || 0` (`|| 0` is the identity on the score). -/
def effFrequency (st : Option SenderStats) : ℚ :=
  match st with
  | some s => s.frequencyScore
  | none => 0

/-- `senderStats?.reputationScore || 0.5`: a present-but-zero reputation is
falsy in JS and also defaults to 0.5. -/
def effReputation (st : Option SenderStats) : ℚ :=
  match st with
  | some s => if s.reputationScore = 0 then 0.5 else s.reputationScore
  | none => 0.5

/-- The weighted sum computed inside `detectNewsletter` (Section 4.8 weights). -/
def finalScore (e : NormalizedEmail) (st : Option SenderStats) : ℚ :=
  checkListUnsubscribe e * 0.35
    + max (effReputation st) (checkSenderDomain e) * 0.25
    + checkProviderCategory e * 0.2
    + effFrequency st * 0.1
    + 0 * 0.05
    + analyzeHeaders e * 0.05

structure DetectionSignals where
  listUnsubscribe : Bool
  senderReputation : ℚ
  providerCategory : EmailCategory
  frequencyScore : ℚ
  htmlSignals : ℚ
  headerSignals : ℚ
  deriving DecidableEq, Repr

structure DetectionResult where
  type : EmailCategory
  confidence : ℚ
  signals : DetectionSignals
  deriving DecidableEq, Repr

/-- `detectNewsletter` from `newsletter.ts`: transactional and personal
overrides, then weighted scoring with thresholds and the final
provider-category override. -/
def detectNewsletter (e : NormalizedEmail) (st : Option SenderStats) : DetectionResult :=
  if isTransactional e then
    { type := .transactional, confidence := 0.9,
      signals := { listUnsubscribe := false, senderReputation := 0,
                   providerCategory := e.category, frequencyScore := 0,
                   htmlSignals := 0, headerSignals := 0 } }
  else if isLikelyPersonalSender e then
    { type := .personal, confidence := 0.8,
      signals := { listUnsubscribe := false, senderReputation := 0,
                   providerCategory := e.category, frequencyScore := 0,
                   htmlSignals := 0, headerSignals := 0 } }
  else
    let fs := finalScore e st
    let ty1 : EmailCategory :=
      if 0.75 ≤ fs then .newsletter
      else if 0.5 ≤ fs then .promo
      else if 0.3 ≤ fs then .social
      else .unknown
    let ty2 : EmailCategory :=
      if e.labels.contains "CATEGORY_PROMOTIONS" && ty1 = .unknown then .promo
      else if e.labels.contains "CATEGORY_SOCIAL" && ty1 = .unknown then .social
      else ty1
    { type := ty2, confidence := min fs 1,
      signals := { listUnsubscribe := decide ((0 : ℚ) < checkListUnsubscribe e),
                   senderReputation := effReputation st,
                   providerCategory := e.category,
                   frequencyScore := effFrequency st,
                   htmlSignals := 0, headerSignals := analyzeHeaders e } }

/-! ## Safety policy (`newsletter.ts`) -/

inductive DomainSafety
  | safe_to_nuke | caution | never_nuke | unknown
  deriving DecidableEq, Repr

/-- Exact or dot-suffix match of a lower-cased domain against a list entry. -/
def domainSuffixMatch (ld : String) (d : String) : Bool :=
  ld == d || ("." ++ d).data.isSuffixOf ld.data

/-- `getDomainSafetyCategory`: never-list, then caution, then safe list. -/
def getDomainSafetyCategory (domain : String) : DomainSafety :=
  let ld := lowerStr domain
  if DOMAIN_SAFETY_neverNuke.any (fun d => domainSuffixMatch ld d) then .never_nuke
  else if DOMAIN_SAFETY_caution.any (fun d => domainSuffixMatch ld d) then .caution
  else if DOMAIN_SAFETY_safeToNuke.any (fun d => domainSuffixMatch ld d) then .safe_to_nuke
  else .unknown

structure AllowCheck where
  allowed : Bool
  reason : Option String := none
  deriving DecidableEq, Repr

/-- `canBlockSender`: denies personal, transactional and protected-domain senders. -/
def canBlockSender (e : NormalizedEmail) : AllowCheck :=
  if isLikelyPersonalSender e then
    { allowed := false, reason := some "Cannot block personal senders" }
  else if isTransactional e then
    { allowed := false, reason := some "Cannot block transactional senders" }
  else if getDomainSafetyCategory e.senderDomain = .never_nuke then
    { allowed := false, reason := some "Cannot block senders from protected domains" }
  else
    { allowed := true }

structure NukeCheck where
  allowed : Bool
  requiresConfirmation : Bool
  reason : Option String := none
  deriving DecidableEq, Repr

/-- `canNukeDomain`. -/
def canNukeDomain (domain : String) : NukeCheck :=
  match getDomainSafetyCategory domain with
  | .never_nuke =>
    { allowed := false, requiresConfirmation := false,
      reason := some "This domain cannot be nuked (protected)" }
  | .caution =>
    { allowed := true, requiresConfirmation := true,
      reason := some "This domain may contain important emails. Please confirm." }
  | _ => { allowed := true, requiresConfirmation := false }

/-! ## Unsubscribe engine (`unsubscribe.ts`)

Network and provider calls are abstracted: `httpOk` records the outcome of the
GET/POST/retry sequence performed by `httpUnsubscribe`, and the caller-supplied
capabilities become `Option Bool` values (`none` = capability not supplied,
`some b` = supplied and returning `b`; each capability is only ever invoked at
one fixed argument, so a single outcome suffices). -/

/-- The `SUSPICIOUS_PATTERNS` regexes are case-insensitive unanchored searches
for these literal fragments. -/
def SUSPICIOUS_PATTERNS : List String :=
  ["track.", "redirect.", "click.", "bit.ly", "t.co", "goo.gl", "tinyurl", "ow.ly"]

/-- `isSuspiciousLink`. -/
def isSuspiciousLink (url : String) : Bool :=
  SUSPICIOUS_PATTERNS.any (fun p => includesS (lowerS url) p)

structure SafetyCheck where
  safe : Bool
  requiresConfirmation : Bool
  reason : Option String := none
  deriving DecidableEq, Repr

/-- `checkUnsubscribeSafety`: block-gate first, then suspicious-link and
caution-domain confirmation requirements. -/
def checkUnsubscribeSafety (e : NormalizedEmail) : SafetyCheck :=
  let bc := canBlockSender e
  if !bc.allowed then
    { safe := false, requiresConfirmation := false, reason := bc.reason }
  else if strTruthy e.listUnsubscribe.http
      && isSuspiciousLink (e.listUnsubscribe.http.getD "") then
    { safe := true, requiresConfirmation := true,
      reason := some "Unsubscribe link looks suspicious. Please confirm." }
  else if getDomainSafetyCategory e.senderDomain = .caution then
    { safe := true, requiresConfirmation := true,
      reason := some "This sender is from a domain that may send important emails." }
  else
    { safe := true, requiresConfirmation := false }

/-- `httpUnsubscribe`: non-HTTPS links are refused outright; the network
GET/POST/retry outcome is the `httpOk` oracle. -/
def httpUnsubscribe (httpOk : Bool) (url : String) : Bool :=
  "https://".data.isPrefixOf url.data && httpOk

inductive UnsubMethod
  | http | mailto | provider | block | spam
  deriving DecidableEq, Repr

/-- The shapes of the `metadata` record at each return site of
`executeUnsubscribe`. -/
inductive UnsubMeta
  | failureReason (reason : Option String)
  | confirmNeeded (reason : Option String)
  | viaUrl (url : String)
  | viaMailto (m : String)
  | viaSender (s : String)
  | viaEmailId (id : String)
  | allFailed
  deriving DecidableEq, Repr

structure UnsubscribeResult where
  success : Bool
  method : UnsubMethod
  fallbackUsed : Bool
  undoToken : Option String
  metadata : UnsubMeta
  deriving DecidableEq, Repr

structure UnsubOptions where
  confirmUnsafe : Bool := false
  sendMailto : Option Bool := none
  createBlockFilter : Option Bool := none
  markAsSpam : Option Bool := none
  deriving DecidableEq, Repr

/-- Final fallback of `executeUnsubscribe`: mark as spam, else overall failure. -/
def unsubSpamStage (e : NormalizedEmail) (opts : UnsubOptions) (token : String) :
    UnsubscribeResult :=
  match opts.markAsSpam with
  | some ok =>
    if ok then
      { success := true, method := .spam, fallbackUsed := true,
        undoToken := some token, metadata := .viaEmailId e.id }
    else
      { success := false, method := .http, fallbackUsed := true,
        undoToken := none, metadata := .allFailed }
  | none =>
    { success := false, method := .http, fallbackUsed := true,
      undoToken := none, metadata := .allFailed }

/-- Block-filter fallback stage of `executeUnsubscribe`. -/
def unsubBlockStage (e : NormalizedEmail) (opts : UnsubOptions) (token : String) :
    UnsubscribeResult :=
  match opts.createBlockFilter with
  | some ok =>
    if ok then
      { success := true, method := .block, fallbackUsed := true,
        undoToken := some token, metadata := .viaSender e.sender }
    else unsubSpamStage e opts token
  | none => unsubSpamStage e opts token

/-- Mailto stage of `executeUnsubscribe`: attempted only when a mailto address
and a send capability are both present (the parsed mailto fields only feed the
capability, whose outcome is the oracle). -/
def unsubMailtoStage (e : NormalizedEmail) (opts : UnsubOptions) (token : String) :
    UnsubscribeResult :=
  match e.listUnsubscribe.mailto, opts.sendMailto with
  | some m, some ok =>
    if strTruthy (some m) && ok then
      { success := true, method := .mailto, fallbackUsed := false,
        undoToken := some token, metadata := .viaMailto m }
    else unsubBlockStage e opts token
  | _, _ => unsubBlockStage e opts token

/-- `executeUnsubscribe`: safety gate, HTTP stage, mailto stage, block-filter
fallback, spam fallback. -/
def executeUnsubscribe (e : NormalizedEmail) (opts : UnsubOptions) (httpOk : Bool)
    (token : String) : UnsubscribeResult :=
  let safety := checkUnsubscribeSafety e
  if !safety.safe then
    { success := false, method := .http, fallbackUsed := false,
      undoToken := none, metadata := .failureReason safety.reason }
  else if safety.requiresConfirmation && !opts.confirmUnsafe then
    { success := false, method := .http, fallbackUsed := false,
      undoToken := none, metadata := .confirmNeeded safety.reason }
  else if strTruthy e.listUnsubscribe.http
      && httpUnsubscribe httpOk (e.listUnsubscribe.http.getD "") then
    { success := true, method := .http, fallbackUsed := false,
      undoToken := some token, metadata := .viaUrl (e.listUnsubscribe.http.getD "") }
  else unsubMailtoStage e opts token

/-! ## Block and domain-nuke engine (`block.ts`) -/

inductive BlockAction
  | block | domain_nuke
  deriving DecidableEq, Repr

structure BlockMetadata where
  sender : String
  domain : String
  filterId : Option String := none
  emailsDeleted : Nat
  deriving DecidableEq, Repr

structure BlockSenderResult where
  success : Bool
  action : BlockAction
  undoToken : Option String
  metadata : BlockMetadata
  deriving DecidableEq, Repr

structure BlockOptions where
  createFilter : String → Bool × Option String
  deleteEmails : List String → Bool
  getEmailsFromSender : String → List String

/-- `blockSender` from `block.ts`: safety gate, filter creation, best-effort
bulk delete (a failed delete leaves `emailsDeleted = 0` but does not fail the
action). -/
def blockSender (e : NormalizedEmail) (opts : BlockOptions) (token : String) :
    BlockSenderResult :=
  if !(canBlockSender e).allowed then
    { success := false, action := .block, undoToken := none,
      metadata := { sender := e.sender, domain := e.senderDomain, emailsDeleted := 0 } }
  else
    let fr := opts.createFilter e.sender
    if !fr.1 then
      { success := false, action := .block, undoToken := none,
        metadata := { sender := e.sender, domain := e.senderDomain, emailsDeleted := 0 } }
    else
      let existing := opts.getEmailsFromSender e.sender
      let emailsDeleted :=
        if 0 < existing.length then
          (if opts.deleteEmails existing then existing.length else 0)
        else 0
      { success := true, action := .block, undoToken := some token,
        metadata := { sender := e.sender, domain := e.senderDomain,
                      filterId := fr.2, emailsDeleted := emailsDeleted } }

structure NukeMetadata where
  domain : String
  sendersBlocked : Nat
  emailsDeleted : Nat
  filterId : Option String := none
  deriving DecidableEq, Repr

structure NukeResult where
  success : Bool
  action : BlockAction
  undoToken : Option String
  metadata : NukeMetadata
  deriving DecidableEq, Repr

structure NukeOptions where
  createDomainFilter : String → Bool × Option String
  deleteEmails : List String → Bool
  getEmailsFromDomain : String → List String
  getSendersFromDomain : String → List String
  confirmCaution : Bool := false

/-- `nukeDomain` from `block.ts` (named `nukeDomainAction` here; the buffer has
its own local `nukeDomain`): safety gate, confirmation gate, bulk delete, then
filter creation whose failure fails the whole action. -/
def nukeDomainAction (domain : String) (opts : NukeOptions) (token : String) :
    NukeResult :=
  let sc := canNukeDomain domain
  if !sc.allowed then
    { success := false, action := .domain_nuke, undoToken := none,
      metadata := { domain := domain, sendersBlocked := 0, emailsDeleted := 0 } }
  else if sc.requiresConfirmation && !opts.confirmCaution then
    { success := false, action := .domain_nuke, undoToken := none,
      metadata := { domain := domain, sendersBlocked := 0, emailsDeleted := 0 } }
  else
    let senders := opts.getSendersFromDomain domain
    let existing := opts.getEmailsFromDomain domain
    let emailsDeleted :=
      if 0 < existing.length then
        (if opts.deleteEmails existing then existing.length else 0)
      else 0
    let fr := opts.createDomainFilter domain
    if !fr.1 then
      { success := false, action := .domain_nuke, undoToken := none,
        metadata := { domain := domain, sendersBlocked := senders.length,
                      emailsDeleted := emailsDeleted } }
    else
      { success := true, action := .domain_nuke, undoToken := some token,
        metadata := { domain := domain, sendersBlocked := senders.length,
                      emailsDeleted := emailsDeleted, filterId := fr.2 } }

/-! ## Action / undo orchestrator (`actions.ts`)

The Gmail provider module is abstracted into an oracle record; the in-memory
`undoStore` map becomes an explicit association list with unique keys,
threaded through `executeAction` and `undoAction`; `Date.now()` becomes the
`now : Int` parameter; the freshly generated uuid tokens become explicit
string parameters carried by the oracle record. -/

inductive SwipeAction
  | delete | unsubscribe | block | keep | nuke
  deriving DecidableEq, Repr

/-- `PERFORMANCE.undoWindowMs`. -/
def undoWindowMs : Int := 30000

structure UndoData where
  action : SwipeAction
  emailId : String
  providerId : String
  sender : String
  domain : String
  filterId : Option String := none
  timestamp : Int
  deriving DecidableEq, Repr

/-- The in-memory undo store: an association list with pairwise distinct keys
maintained by `storeSet` / `storeDelete`. -/
abbrev UndoStore := List (String × UndoData)

/-- `undoStore.set token data` (JS `Map.set`: replaces any previous binding). -/
def storeSet (tok : String) (d : UndoData) (store : UndoStore) : UndoStore :=
  (tok, d) :: store.filter (fun p => p.1 != tok)

/-- `undoStore.delete token`. -/
def storeDelete (tok : String) (store : UndoStore) : UndoStore :=
  store.filter (fun p => p.1 != tok)

/-- Outcomes of the Gmail provider calls issued by `executeAction` and
`undoAction`, plus the uuid tokens generated inside the sub-engines. -/
structure GmailOracles where
  trashEmail : String → Bool
  untrashEmail : String → Bool
  createFilterBySender : String → Bool × Option String
  createFilterByDomain : String → Bool × Option String
  deleteFilter : String → Bool
  getEmailsFromSender : String → List String
  getEmailsFromDomain : String → List String
  batchModifyEmails : List String → Bool
  markAsSpam : String → Bool
  httpOk : Bool := false
  unsubToken : String := "unsub-token"
  blockToken : String := "block-token"

structure ActionOptions where
  confirmDomainNuke : Bool := false
  domain : Option String := none
  deriving DecidableEq, Repr

/-- The shapes of the `metadata` record at each return site of `executeAction`. -/
inductive ActionMeta
  | emailIdM (id : String)
  | errorM (msg : String)
  | unsubM (m : UnsubMeta)
  | blockM (m : BlockMetadata)
  | nukeM (m : NukeMetadata)
  | keepM (emailId sender domain : String)
  deriving DecidableEq, Repr

structure ActionResult where
  success : Bool
  action : SwipeAction
  undoToken : Option String
  undoExpiry : Option Int
  metadata : ActionMeta
  deriving DecidableEq, Repr

/-- `executeAction` from `actions.ts`. Returns the `ActionResult` and the
updated undo store. -/
def executeAction (a : SwipeAction) (e : NormalizedEmail) (g : GmailOracles)
    (opts : ActionOptions) (undoToken : String) (now : Int) (store : UndoStore) :
    ActionResult × UndoStore :=
  let undoExpiry := now + undoWindowMs
  match a with
  | .delete =>
    if g.trashEmail e.providerId then
      ({ success := true, action := .delete, undoToken := some undoToken,
         undoExpiry := some undoExpiry, metadata := .emailIdM e.id },
       storeSet undoToken
         { action := .delete, emailId := e.id, providerId := e.providerId,
           sender := e.sender, domain := e.senderDomain, timestamp := now } store)
    else
      ({ success := false, action := .delete, undoToken := none,
         undoExpiry := none, metadata := .errorM "Failed to delete email" }, store)
  | .unsubscribe =>
    let r := executeUnsubscribe e
      { confirmUnsafe := false, sendMailto := none,
        createBlockFilter := some (g.createFilterBySender e.sender).1,
        markAsSpam := some (g.markAsSpam e.id) } g.httpOk g.unsubToken
    if r.success && r.undoToken.isSome then
      ({ success := true, action := .unsubscribe, undoToken := some undoToken,
         undoExpiry := some undoExpiry, metadata := .unsubM r.metadata },
       storeSet undoToken
         { action := .unsubscribe, emailId := e.id, providerId := e.providerId,
           sender := e.sender, domain := e.senderDomain, timestamp := now } store)
    else
      ({ success := false, action := .unsubscribe, undoToken := none,
         undoExpiry := none, metadata := .unsubM r.metadata }, store)
  | .block =>
    let r := blockSender e
      { createFilter := g.createFilterBySender,
        deleteEmails := g.batchModifyEmails,
        getEmailsFromSender := g.getEmailsFromSender } g.blockToken
    if r.success then
      ({ success := true, action := .block, undoToken := some undoToken,
         undoExpiry := some undoExpiry, metadata := .blockM r.metadata },
       storeSet undoToken
         { action := .block, emailId := e.id, providerId := e.providerId,
           sender := e.sender, domain := e.senderDomain,
           filterId := r.metadata.filterId, timestamp := now } store)
    else
      ({ success := false, action := .block, undoToken := none,
         undoExpiry := none, metadata := .blockM r.metadata }, store)
  | .keep =>
    ({ success := true, action := .keep, undoToken := some undoToken,
       undoExpiry := some undoExpiry,
       metadata := .keepM e.id e.sender e.senderDomain }, store)
  | .nuke =>
    let domain :=
      match opts.domain with
      | some d => if d.isEmpty then e.senderDomain else d
      | none => e.senderDomain
    let r := nukeDomainAction domain
      { createDomainFilter := g.createFilterByDomain,
        deleteEmails := g.batchModifyEmails,
        getEmailsFromDomain := g.getEmailsFromDomain,
        getSendersFromDomain := fun _ => [],
        confirmCaution := opts.confirmDomainNuke } g.blockToken
    if r.success then
      ({ success := true, action := .nuke, undoToken := some undoToken,
         undoExpiry := some undoExpiry, metadata := .nukeM r.metadata },
       storeSet undoToken
         { action := .nuke, emailId := e.id, providerId := e.providerId,
           sender := e.sender, domain := domain,
           filterId := r.metadata.filterId, timestamp := now } store)
    else
      ({ success := false, action := .nuke, undoToken := none,
         undoExpiry := none, metadata := .nukeM r.metadata }, store)

structure UndoResult where
  success : Bool
  error : Option String := none
  deriving DecidableEq, Repr

/-- `undoAction` from `actions.ts`: lookup, expiry check with eviction, then
the kind-specific reversal. -/
def undoAction (tok : String) (g : GmailOracles) (now : Int) (store : UndoStore) :
    UndoResult × UndoStore :=
  match store.lookup tok with
  | none => ({ success := false, error := some "Undo token not found or expired" }, store)
  | some d =>
    if undoWindowMs < now - d.timestamp then
      ({ success := false, error := some "Undo window has expired" }, storeDelete tok store)
    else
      match d.action with
      | .delete =>
        if g.untrashEmail d.providerId then ({ success := true }, storeDelete tok store)
        else ({ success := false, error := some "Failed to untrash email" }, store)
      | .block | .nuke =>
        if strTruthy d.filterId then
          if g.deleteFilter (d.filterId.getD "") then
            ({ success := true }, storeDelete tok store)
          else ({ success := false, error := some "Failed to delete filter" }, store)
        else ({ success := true }, storeDelete tok store)
      | .unsubscribe | .keep => ({ success := true }, storeDelete tok store)

/-! ## Adaptive buffer (`buffer.ts`)

The refill callback `() => Promise<NormalizedEmail[]>` becomes an
`Except Unit (List NormalizedEmail)` outcome (`Except.error` = the promise
rejected). `consumeItem` / `consumeBatch` return the `Except` value seen by
the awaiting caller together with the post-call buffer state. -/

namespace Buffer

structure BufferItem where
  email : NormalizedEmail
  isBossField : Bool := false
  groupCount : Option Nat := none
  deriving DecidableEq, Repr

structure BufferConfig where
  windowSize : Nat := 30
  triggerThreshold : Nat := 10
  batchSize : Nat := 50
  deriving DecidableEq, Repr

structure BufferState where
  fullQueue : List NormalizedEmail
  activeWindow : List BufferItem
  config : BufferConfig
  isFetching : Bool
  deriving DecidableEq, Repr

/-- The scan loop of `groupIntoBosses`: `all` is the windowed slice, the second
argument the remaining scan positions, `proc` the ids already processed. -/
def groupGo (all : List NormalizedEmail) :
    List NormalizedEmail → List String → List BufferItem
  | [], _ => []
  | e :: rest, proc =>
    if proc.contains e.id then groupGo all rest proc
    else
      let sameDomain :=
        all.filter (fun x => x.senderDomain == e.senderDomain && !proc.contains x.id)
      if 5 ≤ sameDomain.length then
        { email := sameDomain.headD e, isBossField := true,
          groupCount := some sameDomain.length }
          :: groupGo all rest (proc ++ sameDomain.map NormalizedEmail.id)
      else
        { email := e } :: groupGo all rest (proc ++ [e.id])

/-- `groupIntoBosses`. -/
def groupIntoBosses (emails : List NormalizedEmail) : List BufferItem :=
  groupGo emails emails []

/-- `syncWindow`: recompute the grouped window from the first `windowSize`
entries of the backing queue. -/
def syncWindow (s : BufferState) : BufferState :=
  { s with activeWindow := groupIntoBosses (s.fullQueue.take s.config.windowSize) }

/-- The constructor: seed the queue and synchronously compute the window. -/
def mkBuffer (initial : List NormalizedEmail) (config : BufferConfig) : BufferState :=
  syncWindow { fullQueue := initial, activeWindow := [], config := config,
               isFetching := false }

/-- `refill`: sets the in-flight flag, runs the callback, deduplicates and
appends on success; the `finally` block clears the flag and resyncs the window
on both paths, and a rejection is re-raised to the awaiting caller. -/
def refill (cb : Except Unit (List NormalizedEmail)) (s : BufferState) :
    Except Unit Unit × BufferState :=
  let s1 := { s with isFetching := true }
  match cb with
  | .ok newItems =>
    let uniqueNewItems :=
      newItems.filter (fun n => !(s1.fullQueue.any (fun ex => ex.id == n.id)))
    (.ok (),
     syncWindow { s1 with fullQueue := s1.fullQueue ++ uniqueNewItems, isFetching := false })
  | .error u => (.error u, syncWindow { s1 with isFetching := false })

/-- `consumeItem`: remove the id from window and queue, trigger a refill when
the shrunk window is at or below the threshold, resync. A refill rejection
escapes before the trailing `syncWindow` (the `finally` inside `refill` has
already resynced). -/
def consumeItem (cb : Except Unit (List NormalizedEmail)) (id : String)
    (s : BufferState) : Except Unit Unit × BufferState :=
  let s1 := { s with
    activeWindow := s.activeWindow.filter (fun it => it.email.id != id),
    fullQueue := s.fullQueue.filter (fun e => e.id != id) }
  if s1.activeWindow.length ≤ s1.config.triggerThreshold ∧ s1.isFetching = false then
    match refill cb s1 with
    | (.ok _, s2) => (.ok (), syncWindow s2)
    | (.error u, s2) => (.error u, s2)
  else (.ok (), syncWindow s1)

/-- `consumeBatch`. -/
def consumeBatch (cb : Except Unit (List NormalizedEmail)) (ids : List String)
    (s : BufferState) : Except Unit Unit × BufferState :=
  let s1 := { s with
    activeWindow := s.activeWindow.filter (fun it => !ids.contains it.email.id),
    fullQueue := s.fullQueue.filter (fun e => !ids.contains e.id) }
  if s1.activeWindow.length ≤ s1.config.triggerThreshold ∧ s1.isFetching = false then
    match refill cb s1 with
    | (.ok _, s2) => (.ok (), syncWindow s2)
    | (.error u, s2) => (.error u, s2)
  else (.ok (), syncWindow s1)

/-- `addItem`: splice the email in at the given index (clamped to the end, as
JS `splice` does) and resync. -/
def addItem (e : NormalizedEmail) (idx : Nat) (s : BufferState) : BufferState :=
  syncWindow { s with
    fullQueue := s.fullQueue.take idx ++ [e] ++ s.fullQueue.drop idx }

/-- `nukeDomain`: drop every queue entry whose `senderDomain` is strictly equal
to the argument and resync; a pure local edit of the buffer state. -/
def nukeDomain (domain : String) (s : BufferState) : BufferState :=
  syncWindow { s with
    fullQueue := s.fullQueue.filter (fun e => e.senderDomain != domain) }

/-- One external buffer operation, with the refill outcome a consumption would
observe if it triggers one. -/
inductive BufOp
  | consumeOne (cb : Except Unit (List NormalizedEmail)) (id : String)
  | consumeMany (cb : Except Unit (List NormalizedEmail)) (ids : List String)
  | add (e : NormalizedEmail) (idx : Nat)
  | nuke (domain : String)

/-- Apply one operation to the buffer state. -/
def stepOp : BufOp → BufferState → BufferState
  | .consumeOne cb id, s => (consumeItem cb id s).2
  | .consumeMany cb ids, s => (consumeBatch cb ids s).2
  | .add e idx, s => addItem e idx s
  | .nuke d, s => nukeDomain d s

/-- Apply a sequence of operations. -/
def runOps (ops : List BufOp) (s : BufferState) : BufferState :=
  ops.foldl (fun s op => stepOp op s) s

/-- All entries of `all` sharing the sender domain of `e`, in order. -/
def sameDomAll (all : List NormalizedEmail) (e : NormalizedEmail) :
    List NormalizedEmail :=
  all.filter (fun x => x.senderDomain == e.senderDomain)

/-- Specification-side description of the grouping, following the spec's words
rather than the scan loop: a member of a same-domain set of cardinality at
least 5 contributes the single collapsed item (with the set's first member as
representative and the cardinality as count) exactly when it is the first
encounter of its domain, and contributes nothing otherwise; a member of a
smaller set contributes itself as a singleton. Emission order is the order of
first encounter, because this is an order-preserving `filterMap`. -/
def groupSpecF (all : List NormalizedEmail) (e : NormalizedEmail) :
    Option BufferItem :=
  let S := sameDomAll all e
  if 5 ≤ S.length then
    if S.head?.map NormalizedEmail.id = some e.id then
      some { email := S.headD e, isBossField := true, groupCount := some S.length }
    else none
  else some { email := e }

/-- The grouped window as described by the spec. -/
def groupSpec (emails : List NormalizedEmail) : List BufferItem :=
  emails.filterMap (groupSpecF emails)

end Buffer

/-! ## Concrete fixtures used by witnesses and counterexamples -/

/-- A minimal concrete email: neither transactional nor personal, unknown
domain tier. -/
def mkTestEmail (id sender domain : String) : NormalizedEmail :=
  { id := id, sender := sender, senderDomain := domain }

/-- Whether an awaited buffer call resolved rather than rejected. -/
def resolvedOk : Except Unit Unit → Bool
  | .ok _ => true
  | .error _ => false

/-- A fixed oracle record for concrete scenarios. -/
def gmailFix : GmailOracles :=
  { trashEmail := fun _ => true,
    untrashEmail := fun _ => true,
    createFilterBySender := fun _ => (true, some "f1"),
    createFilterByDomain := fun _ => (true, some "f2"),
    deleteFilter := fun _ => true,
    getEmailsFromSender := fun _ => ["m1"],
    getEmailsFromDomain := fun _ => [],
    batchModifyEmails := fun _ => false,
    markAsSpam := fun _ => true }

def keepEmail : NormalizedEmail := mkTestEmail "k1" "friend@team.example" "team.example"

def undoDataFix : UndoData :=
  { action := .delete, emailId := "x", providerId := "p", sender := "s",
    domain := "d", timestamp := 0 }

def blockEmailFix : NormalizedEmail := mkTestEmail "b9" "news@example.org" "example.org"

def blockOptsOk : BlockOptions :=
  { createFilter := fun _ => (true, some "f1"),
    deleteEmails := fun _ => false,
    getEmailsFromSender := fun _ => ["m1", "m2"] }

def blockOptsBad : BlockOptions :=
  { createFilter := fun _ => (false, none),
    deleteEmails := fun _ => true,
    getEmailsFromSender := fun _ => ["m1"] }

def unsubEmailFix : NormalizedEmail :=
  { mkTestEmail "e1" "news@shop.example" "shop.example" with
    listUnsubscribe := { http := some "https://click.shop.example/u", mailto := none } }

def transactionalEmailFix : NormalizedEmail :=
  { mkTestEmail "t1" "receipt@shop.example" "shop.example" with
    subject := "hello", labels := ["CATEGORY_PROMOTIONS"] }

def monotoneEmailFix : NormalizedEmail := mkTestEmail "m1" "team@startup.example" "startup.example"

def bufFix : Buffer.BufferState :=
  Buffer.mkBuffer
    [mkTestEmail "x" "u@c.example" "c.example", mkTestEmail "y" "v@d.example" "d.example"] {}

def nukeBufFix : Buffer.BufferState :=
  Buffer.mkBuffer
    [mkTestEmail "n1" "x@a.com" "a.com", mkTestEmail "n2" "y@A.com" "A.com",
     mkTestEmail "n3" "z@b.com" "b.com"] {}

/-! ## Helper lemmas -/

theorem lookup_storeDelete_self (tok : String) (st : UndoStore) :
    (storeDelete tok st).lookup tok = none := by
  unfold storeDelete
  induction st with
  | nil => rfl
  | cons p tl ih =>
    by_cases h : p.1 = tok
    · simp only [List.filter_cons, h]
      simpa using ih
    · simp only [List.filter_cons]
      have hb : (p.1 != tok) = true := by simp [h]
      rw [hb]
      simp only [if_true]
      rw [List.lookup_cons]
      have : (tok == p.1) = false := by simp [Ne.symm h]
      rw [this]
      exact ih

theorem lookup_storeDelete_ne (tok t' : String) (st : UndoStore) (h : t' ≠ tok) :
    (storeDelete tok st).lookup t' = st.lookup t' := by
  unfold storeDelete
  induction st with
  | nil => rfl
  | cons p tl ih =>
    by_cases hp : p.1 = tok
    · simp only [List.filter_cons, hp]
      rw [List.lookup_cons]
      have : (t' == p.1) = false := by subst hp; simp [h]
      simp only [this]
      simpa using ih
    · simp only [List.filter_cons]
      have hb : (p.1 != tok) = true := by simp [hp]
      rw [hb]
      simp only [if_true]
      rw [List.lookup_cons, List.lookup_cons]
      by_cases ht : t' = p.1
      · simp [ht]
      · have : (t' == p.1) = false := by simp [ht]
        rw [this]
        simp only [Bool.false_eq_true, if_false]
        exact ih

theorem startsWithL_nil (l : List Char) : startsWithL l [] = true := by
  cases l <;> rfl

theorem startsWithL_append {l pat : List Char} (r : List Char)
    (h : startsWithL l pat = true) : startsWithL (l ++ r) pat = true := by
  induction pat generalizing l with
  | nil => exact startsWithL_nil _
  | cons p ps ih =>
    cases l with
    | nil => exact absurd h (by simp [startsWithL])
    | cons a l' =>
      simp only [startsWithL, Bool.and_eq_true] at h
      simp only [List.cons_append, startsWithL, Bool.and_eq_true]
      exact ⟨h.1, ih h.2⟩

theorem includesL_nil_right (l : List Char) : includesL l [] = true := by
  cases l with
  | nil => rfl
  | cons a t => simp [includesL, startsWithL_nil]

theorem includesL_append_right {l pat : List Char} (r : List Char)
    (h : includesL l pat = true) : includesL (l ++ r) pat = true := by
  induction l with
  | nil =>
    have hp : pat = [] := by
      simpa [includesL, List.isEmpty_iff] using h
    subst hp
    exact includesL_nil_right _
  | cons a t ih =>
    simp only [includesL, Bool.or_eq_true] at h
    simp only [List.cons_append, includesL, Bool.or_eq_true]
    rcases h with h | h
    · exact Or.inl (startsWithL_append r h)
    · exact Or.inr (ih h)

/-- A pattern occurring in the (lower-cased) local part of an address also
occurs in the whole (lower-cased) address, since the local part is a prefix. -/
theorem includesS_of_localPart (s pat : String)
    (h : includesS ((localPart s).map Char.toLower) pat = true) :
    includesS (lowerS s) pat = true := by
  unfold includesS at h ⊢
  unfold lowerS
  have hsplit : s.data = localPart s ++ s.data.dropWhile (fun c => c != '@') := by
    unfold localPart
    exact (List.takeWhile_append_dropWhile (fun c => c != '@') s.data).symm
  rw [hsplit, List.map_append]
  exact includesL_append_right _ h

/-! ## Claim theorems -/

/-- C4: for every undo token whose record is still present in the undo table,
calling `undoAction` strictly after the undo window has elapsed
(`now - created > undoWindow`) fails with the "window expired" error and
evicts the record from the table (other records are untouched). -/
theorem undo_after_window_expires_and_evicts
    (tok : String) (g : GmailOracles) (now : Int) (store : UndoStore) (d : UndoData)
    (hl : store.lookup tok = some d) (hw : undoWindowMs < now - d.timestamp) :
    (undoAction tok g now store).1
        = { success := false, error := some "Undo window has expired" }
      ∧ ((undoAction tok g now store).2).lookup tok = none
      ∧ ∀ t', t' ≠ tok → ((undoAction tok g now store).2).lookup t' = store.lookup t' := by
  simp only [undoAction, hl]
  rw [if_pos hw]
  exact ⟨rfl, lookup_storeDelete_self tok store,
    fun t' ht => lookup_storeDelete_ne tok t' store ht⟩

/-- Witness for C4: a concrete one-record store, queried 30001 ms after
creation, fails with "window expired" and ends up empty. -/
theorem undo_after_window_expires_and_evicts_witness :
    (undoAction "t" gmailFix 30001 [("t", undoDataFix)]).1
        = { success := false, error := some "Undo window has expired" }
      ∧ ((undoAction "t" gmailFix 30001 [("t", undoDataFix)]).2).lookup "t" = none :=
  ⟨(undo_after_window_expires_and_evicts "t" gmailFix 30001 [("t", undoDataFix)]
      undoDataFix (by decide) (by decide)).1,
   (undo_after_window_expires_and_evicts "t" gmailFix 30001 [("t", undoDataFix)]
      undoDataFix (by decide) (by decide)).2.1⟩

/-- C9: for a sender that passes the safety gate, a succeeding filter creation
with a failing bulk delete still yields overall success with
`emailsDeleted = 0` and the created filter id in the metadata, while a failing
filter creation yields overall failure. -/
theorem blockSender_partial_and_filter_failure
    (e : NormalizedEmail) (opts opts' : BlockOptions) (tok tok' : String)
    (hallow : (canBlockSender e).allowed = true)
    (hcf : (opts.createFilter e.sender).1 = true)
    (hne : opts.getEmailsFromSender e.sender ≠ [])
    (hdel : opts.deleteEmails (opts.getEmailsFromSender e.sender) = false)
    (hcf' : (opts'.createFilter e.sender).1 = false) :
    (blockSender e opts tok).success = true
      ∧ (blockSender e opts tok).metadata.emailsDeleted = 0
      ∧ (blockSender e opts tok).metadata.filterId = (opts.createFilter e.sender).2
      ∧ (blockSender e opts' tok').success = false := by
  simp [blockSender, hallow, hcf, hcf', hdel]

/-- Witness for C9 at a concrete gate-passing sender and concrete capabilities. -/
theorem blockSender_partial_and_filter_failure_witness :
    (blockSender blockEmailFix blockOptsOk "tk").success = true
      ∧ (blockSender blockEmailFix blockOptsOk "tk").metadata.emailsDeleted = 0
      ∧ (blockSender blockEmailFix blockOptsOk "tk").metadata.filterId = some "f1"
      ∧ (blockSender blockEmailFix blockOptsBad "tk").success = false :=
  blockSender_partial_and_filter_failure blockEmailFix blockOptsOk blockOptsBad
    "tk" "tk" (by decide) rfl (by decide) rfl rfl

/-- C10: `Buffer.nukeDomain` removes from the backing queue exactly the
entries whose `senderDomain` is string-equal (case-sensitively) to the
argument, keeps all others with their relative order (the result is a sublist
of the original queue), and is a pure function of the buffer state alone. -/
theorem buffer_nukeDomain_removes_exactly_matching
    (domain : String) (s : Buffer.BufferState) :
    ((Buffer.nukeDomain domain s).fullQueue).Sublist s.fullQueue
      ∧ (∀ e ∈ (Buffer.nukeDomain domain s).fullQueue, e.senderDomain ≠ domain)
      ∧ (∀ e ∈ s.fullQueue, e.senderDomain ≠ domain →
            e ∈ (Buffer.nukeDomain domain s).fullQueue)
      ∧ ∀ e, ((Buffer.nukeDomain domain s).fullQueue).count e
            = if e.senderDomain = domain then 0 else s.fullQueue.count e := by
  have hq : (Buffer.nukeDomain domain s).fullQueue
      = s.fullQueue.filter (fun e => e.senderDomain != domain) := rfl
  rw [hq]
  refine ⟨List.filter_sublist _, ?_, ?_, ?_⟩
  · intro e he
    have := (List.mem_filter.mp he).2
    simpa using this
  · intro e he hne
    exact List.mem_filter.mpr ⟨he, by simpa using hne⟩
  · intro e
    by_cases h : e.senderDomain = domain
    · rw [if_pos h]
      rw [List.count_eq_zero]
      intro hmem
      have := (List.mem_filter.mp hmem).2
      simp [h] at this
    · rw [if_neg h]
      exact List.count_filter (by simpa using h)

/-- Witness for C10: nuking `a.com` keeps an email whose domain differs only
in case (`A.com`), keeps order, and drops the matching entry. -/
theorem buffer_nukeDomain_removes_exactly_matching_witness :
    ((Buffer.nukeDomain "a.com" nukeBufFix).fullQueue).Sublist nukeBufFix.fullQueue
      ∧ mkTestEmail "n2" "y@A.com" "A.com" ∈ (Buffer.nukeDomain "a.com" nukeBufFix).fullQueue
      ∧ ((Buffer.nukeDomain "a.com" nukeBufFix).fullQueue).count
          (mkTestEmail "n1" "x@a.com" "a.com") = 0 := by
  refine ⟨(buffer_nukeDomain_removes_exactly_matching "a.com" nukeBufFix).1,
    (buffer_nukeDomain_removes_exactly_matching "a.com" nukeBufFix).2.2.1
      (mkTestEmail "n2" "y@A.com" "A.com") (by decide) (by decide), ?_⟩
  have h := (buffer_nukeDomain_removes_exactly_matching "a.com" nukeBufFix).2.2.2
    (mkTestEmail "n1" "x@a.com" "a.com")
  simpa using h

/-- Counterexample for C2: the keep action succeeds and returns a token and
expiry, but it registers nothing in the undo store (the store stays empty), so
undoing with that token inside the window fails with "not found". -/
theorem keep_then_undo_counterexample :
    (executeAction .keep keepEmail gmailFix {} "tok" 0 []).1.success = true
      ∧ (executeAction .keep keepEmail gmailFix {} "tok" 0 []).1.undoToken = some "tok"
      ∧ (executeAction .keep keepEmail gmailFix {} "tok" 0 []).1.undoExpiry = some 30000
      ∧ (executeAction .keep keepEmail gmailFix {} "tok" 0 []).2 = []
      ∧ (undoAction "tok" gmailFix 0 (executeAction .keep keepEmail gmailFix {} "tok" 0 []).2).1
          = { success := false, error := some "Undo token not found or expired" } :=
  ⟨rfl, rfl, rfl, rfl, rfl⟩

/-- C2 amended: executing keep always succeeds with a non-null undo token and
expiry, but stores no undo record, so a subsequent `undoAction` with that
(fresh) token fails with "Undo token not found or expired" even within the
undo window. -/
theorem keep_succeeds_but_registers_no_undo_record
    (e : NormalizedEmail) (g : GmailOracles) (opts : ActionOptions) (tok : String)
    (now now' : Int) (store : UndoStore) (habs : store.lookup tok = none) :
    (executeAction .keep e g opts tok now store).1.success = true
      ∧ (executeAction .keep e g opts tok now store).1.undoToken = some tok
      ∧ (executeAction .keep e g opts tok now store).1.undoExpiry = some (now + undoWindowMs)
      ∧ (executeAction .keep e g opts tok now store).2 = store
      ∧ (undoAction tok g now' (executeAction .keep e g opts tok now store).2).1
          = { success := false, error := some "Undo token not found or expired" } := by
  refine ⟨rfl, rfl, rfl, rfl, ?_⟩
  show (undoAction tok g now' store).1 = _
  simp only [undoAction, habs]

/-- Witness for C2 amended, at a concrete email, token and empty store. -/
theorem keep_succeeds_but_registers_no_undo_record_witness :
    (executeAction .keep keepEmail gmailFix {} "tok" 5 []).1.success = true
      ∧ (executeAction .keep keepEmail gmailFix {} "tok" 5 []).1.undoToken = some "tok"
      ∧ (executeAction .keep keepEmail gmailFix {} "tok" 5 []).1.undoExpiry = some 30005
      ∧ (executeAction .keep keepEmail gmailFix {} "tok" 5 []).2 = []
      ∧ (undoAction "tok" gmailFix 7 (executeAction .keep keepEmail gmailFix {} "tok" 5 []).2).1
          = { success := false, error := some "Undo token not found or expired" } :=
  keep_succeeds_but_registers_no_undo_record keepEmail gmailFix {} "tok" 5 7 [] rfl

/-- Counterexample for C1: with a rejecting refill callback, the triggered
`consumeItem` call does not return normally — the rejection propagates to the
caller (while the flag is cleared and no items are appended). -/
theorem consume_with_failing_refill_counterexample :
    resolvedOk (Buffer.consumeItem (.error ()) "x" bufFix).1 = false
      ∧ (Buffer.consumeItem (.error ()) "x" bufFix).2.isFetching = false
      ∧ ((Buffer.consumeItem (.error ()) "x" bufFix).2.fullQueue).map NormalizedEmail.id
          = ["y"] := by
  refine ⟨rfl, rfl, ?_⟩
  decide

/-- C1 amended: when a consumption triggers a refill whose callback rejects,
the in-flight flag is still cleared, zero new items are appended (the queue is
exactly the old queue minus the consumed id) and the window is resynced, but
the rejection propagates to the awaiting caller instead of being swallowed
(`consumeBatch` behaves identically). -/
theorem failing_refill_clears_flag_but_rejects
    (s t : Buffer.BufferState) (id : String) (ids : List String)
    (hf : s.isFetching = false)
    (ht : ((s.activeWindow.filter (fun it => it.email.id != id)).length
            ≤ s.config.triggerThreshold))
    (hf' : t.isFetching = false)
    (ht' : ((t.activeWindow.filter (fun it => !ids.contains it.email.id)).length
            ≤ t.config.triggerThreshold)) :
    resolvedOk (Buffer.consumeItem (.error ()) id s).1 = false
      ∧ (Buffer.consumeItem (.error ()) id s).2.isFetching = false
      ∧ (Buffer.consumeItem (.error ()) id s).2.fullQueue
          = s.fullQueue.filter (fun e => e.id != id)
      ∧ (Buffer.consumeItem (.error ()) id s).2.activeWindow
          = Buffer.groupIntoBosses ((s.fullQueue.filter (fun e => e.id != id)).take
              s.config.windowSize)
      ∧ resolvedOk (Buffer.consumeBatch (.error ()) ids t).1 = false
      ∧ (Buffer.consumeBatch (.error ()) ids t).2.isFetching = false
      ∧ (Buffer.consumeBatch (.error ()) ids t).2.fullQueue
          = t.fullQueue.filter (fun e => !ids.contains e.id) := by
  have h1 : Buffer.consumeItem (.error ()) id s
      = ((.error ()),
         Buffer.syncWindow
           { s with
             activeWindow := s.activeWindow.filter (fun it => it.email.id != id),
             fullQueue := s.fullQueue.filter (fun e => e.id != id),
             isFetching := false }) := by
    unfold Buffer.consumeItem
    rw [if_pos ⟨ht, hf⟩]
    rfl
  have h2 : Buffer.consumeBatch (.error ()) ids t
      = ((.error ()),
         Buffer.syncWindow
           { t with
             activeWindow := t.activeWindow.filter (fun it => !ids.contains it.email.id),
             fullQueue := t.fullQueue.filter (fun e => !ids.contains e.id),
             isFetching := false }) := by
    unfold Buffer.consumeBatch
    rw [if_pos ⟨ht', hf'⟩]
    rfl
  rw [h1, h2]
  exact ⟨rfl, rfl, rfl, rfl, rfl, rfl, rfl⟩

/-- Witness for C1 amended at a concrete two-email buffer. -/
theorem failing_refill_clears_flag_but_rejects_witness :
    resolvedOk (Buffer.consumeItem (.error ()) "x" bufFix).1 = false
      ∧ (Buffer.consumeItem (.error ()) "x" bufFix).2.isFetching = false
      ∧ (Buffer.consumeItem (.error ()) "x" bufFix).2.fullQueue
          = bufFix.fullQueue.filter (fun e => e.id != "x")
      ∧ resolvedOk (Buffer.consumeBatch (.error ()) ["y"] bufFix).1 = false :=
  ⟨(failing_refill_clears_flag_but_rejects bufFix bufFix "x" ["y"] rfl (by decide)
      rfl (by decide)).1,
   (failing_refill_clears_flag_but_rejects bufFix bufFix "x" ["y"] rfl (by decide)
      rfl (by decide)).2.1,
   (failing_refill_clears_flag_but_rejects bufFix bufFix "x" ["y"] rfl (by decide)
      rfl (by decide)).2.2.1,
   (failing_refill_clears_flag_but_rejects bufFix bufFix "x" ["y"] rfl (by decide)
      rfl (by decide)).2.2.2.2.1⟩

/-- When the block gate allows the sender, the unsubscribe safety check is
safe (only the confirmation requirement can remain). -/
theorem checkUnsubscribeSafety_safe (e : NormalizedEmail)
    (h : (canBlockSender e).allowed = true) :
    (checkUnsubscribeSafety e).safe = true := by
  simp only [checkUnsubscribeSafety, h]
  split_ifs with h1 h2 h3
  · simp at h1
  · rfl
  · rfl
  · rfl

/-- Counterexample for C3: all of the claim's stated conditions hold at this
concrete input (the only unsubscribe channel is a suspicious HTTPS link, no
mailto, no block capability, a succeeding spam capability), yet the call fails
with a confirmation-required outcome, because the suspicious link makes the
safety check demand an explicit confirmation the claim never mentions. -/
theorem unsubscribe_without_confirmation_counterexample :
    (executeUnsubscribe unsubEmailFix { markAsSpam := some true } false "tok").success = false
      ∧ (executeUnsubscribe unsubEmailFix { markAsSpam := some true } false "tok").metadata
          = .confirmNeeded (some "Unsubscribe link looks suspicious. Please confirm.") :=
  ⟨rfl, rfl⟩

/-- C3 amended: for an item passing the sender gate, whose only unsubscribe
channel is a (suspicious) HTTPS link, with the caller supplying the
confirmation flag, the HTTP attempt failing, no mailto address, no
block-filter capability and a succeeding spam-mark capability,
`executeUnsubscribe` returns success with `method = spam` and
`fallbackUsed = true`. -/
theorem unsubscribe_falls_back_to_spam
    (e : NormalizedEmail) (url tok : String)
    (hallow : (canBlockSender e).allowed = true)
    (hhttp : e.listUnsubscribe.http = some url)
    (hsusp : isSuspiciousLink url = true)
    (hmailto : e.listUnsubscribe.mailto = none) :
    executeUnsubscribe e { confirmUnsafe := true, markAsSpam := some true } false tok
      = { success := true, method := .spam, fallbackUsed := true,
          undoToken := some tok, metadata := .viaEmailId e.id } := by
  have hsafe := checkUnsubscribeSafety_safe e hallow
  simp only [executeUnsubscribe, hsafe, Bool.not_true, Bool.false_eq_true, if_false,
    httpUnsubscribe, Bool.and_false, unsubMailtoStage, hmailto,
    unsubBlockStage, unsubSpamStage]
  rfl

/-- Witness for C3 amended at the concrete suspicious-link email. -/
theorem unsubscribe_falls_back_to_spam_witness :
    executeUnsubscribe unsubEmailFix { confirmUnsafe := true, markAsSpam := some true }
        false "tok"
      = { success := true, method := .spam, fallbackUsed := true,
          undoToken := some "tok", metadata := .viaEmailId "e1" } :=
  unsubscribe_falls_back_to_spam unsubEmailFix "https://click.shop.example/u" "tok"
    (by decide) rfl (by decide) rfl

/-- C5: for every item whose origin local part or subject matches the fixed
transactional vocabulary, `detectNewsletter` returns `transactional` at
confidence exactly 0.9, regardless of every other signal (unsubscribe header,
labels, headers, reputation / frequency statistics). -/
theorem transactional_override_short_circuits
    (e : NormalizedEmail) (st : Option SenderStats)
    (h : TRANSACTIONAL_PATTERNS.any
          (fun p => includesS ((localPart e.sender).map Char.toLower) p) = true
       ∨ transactionalSubjectPatterns.any
          (fun p => includesS (lowerS e.subject) p) = true) :
    (detectNewsletter e st).type = .transactional
      ∧ (detectNewsletter e st).confidence = 0.9 := by
  have htr : isTransactional e = true := by
    unfold isTransactional
    rw [Bool.or_eq_true]
    rcases h with h | h
    · left
      rw [List.any_eq_true] at h ⊢
      obtain ⟨pat, hmem, hpat⟩ := h
      exact ⟨pat, hmem, includesS_of_localPart e.sender pat hpat⟩
    · right
      exact h
  simp [detectNewsletter, htr]

/-- Witness for C5: a `receipt@` sender with promotional labels and strong
sender statistics is still classified transactional at 0.9. -/
theorem transactional_override_short_circuits_witness :
    (detectNewsletter transactionalEmailFix (some ⟨1, 1⟩)).type = .transactional
      ∧ (detectNewsletter transactionalEmailFix (some ⟨1, 1⟩)).confidence = 0.9 :=
  transactional_override_short_circuits transactionalEmailFix (some ⟨1, 1⟩)
    (Or.inl (by decide))

/-- The confidence of a non-override classification is the weighted score
clamped to 1. -/
theorem detectNewsletter_confidence_of_no_override
    (e : NormalizedEmail) (st : Option SenderStats)
    (ht : isTransactional e = false) (hp : isLikelyPersonalSender e = false) :
    (detectNewsletter e st).confidence = min (finalScore e st) 1 := by
  simp [detectNewsletter, ht, hp]

/-- C8: for every item not matching the transactional or personal overrides,
adding an unsubscribe header (HTTP URL or mailto address) to an
otherwise-identical item never decreases the weighted score or the returned
confidence. -/
theorem unsubscribe_signal_monotone
    (e : NormalizedEmail) (u : ListUnsub) (st : Option SenderStats)
    (ht : isTransactional e = false) (hp : isLikelyPersonalSender e = false)
    (hu : (strTruthy u.http || strTruthy u.mailto) = true) :
    finalScore e st ≤ finalScore { e with listUnsubscribe := u } st
      ∧ (detectNewsletter e st).confidence
          ≤ (detectNewsletter { e with listUnsubscribe := u } st).confidence := by
  obtain ⟨id, pid, sender, sname, sdom, subj, lu, cat, labels, hdrs⟩ := e
  have h1 : checkListUnsubscribe
      ⟨id, pid, sender, sname, sdom, subj, lu, cat, labels, hdrs⟩ ≤ 1 := by
    unfold checkListUnsubscribe
    split <;> norm_num
  have h2 : checkListUnsubscribe
      ⟨id, pid, sender, sname, sdom, subj, u, cat, labels, hdrs⟩ = 1 := by
    unfold checkListUnsubscribe
    rw [if_pos hu]
  have hscore : finalScore ⟨id, pid, sender, sname, sdom, subj, lu, cat, labels, hdrs⟩ st
      ≤ finalScore ⟨id, pid, sender, sname, sdom, subj, u, cat, labels, hdrs⟩ st := by
    unfold finalScore
    rw [h2]
    rw [show checkSenderDomain ⟨id, pid, sender, sname, sdom, subj, u, cat, labels, hdrs⟩
          = checkSenderDomain ⟨id, pid, sender, sname, sdom, subj, lu, cat, labels, hdrs⟩ from rfl]
    rw [show checkProviderCategory ⟨id, pid, sender, sname, sdom, subj, u, cat, labels, hdrs⟩
          = checkProviderCategory ⟨id, pid, sender, sname, sdom, subj, lu, cat, labels, hdrs⟩ from rfl]
    rw [show analyzeHeaders ⟨id, pid, sender, sname, sdom, subj, u, cat, labels, hdrs⟩
          = analyzeHeaders ⟨id, pid, sender, sname, sdom, subj, lu, cat, labels, hdrs⟩ from rfl]
    linarith [h1]
  refine ⟨hscore, ?_⟩
  have ht' : isTransactional
      ⟨id, pid, sender, sname, sdom, subj, u, cat, labels, hdrs⟩ = false := ht
  have hp' : isLikelyPersonalSender
      ⟨id, pid, sender, sname, sdom, subj, u, cat, labels, hdrs⟩ = false := hp
  rw [detectNewsletter_confidence_of_no_override _ st ht hp,
    detectNewsletter_confidence_of_no_override _ st ht' hp']
  exact min_le_min hscore le_rfl

/-- Witness for C8: adding an HTTPS unsubscribe link to a plain startup email
raises the score from 1/8 to 19/40 and the confidence accordingly. -/
theorem unsubscribe_signal_monotone_witness :
    finalScore monotoneEmailFix none
        ≤ finalScore { monotoneEmailFix with
            listUnsubscribe := ⟨some "https://x.example/u", none⟩ } none
      ∧ (detectNewsletter monotoneEmailFix none).confidence
          ≤ (detectNewsletter { monotoneEmailFix with
              listUnsubscribe := ⟨some "https://x.example/u", none⟩ } none).confidence :=
  unsubscribe_signal_monotone monotoneEmailFix ⟨some "https://x.example/u", none⟩ none
    (by decide) (by decide) (by decide)

namespace Buffer

/-- Each scan position emits at most one window item. -/
theorem length_groupGo (all : List NormalizedEmail) :
    ∀ (rest : List NormalizedEmail) (proc : List String),
      (groupGo all rest proc).length ≤ rest.length := by
  intro rest
  induction rest with
  | nil => intro proc; simp [groupGo]
  | cons e rest ih =>
    intro proc
    simp only [groupGo]
    split
    · exact (ih proc).trans (Nat.le_succ _)
    · split
      · simpa using ih _
      · simpa using ih _

/-- Every emitted item's representative email comes from the scanned slice. -/
theorem mem_groupGo (all : List NormalizedEmail) :
    ∀ (rest : List NormalizedEmail) (proc : List String) (b : BufferItem),
      b ∈ groupGo all rest proc → b.email ∈ all ∨ b.email ∈ rest := by
  intro rest
  induction rest with
  | nil => intro proc b h; simp [groupGo] at h
  | cons e rest ih =>
    intro proc b h
    simp only [groupGo] at h
    split at h
    · rcases ih _ _ h with h' | h'
      · exact Or.inl h'
      · exact Or.inr (List.mem_cons_of_mem _ h')
    · split at h
      case isTrue h5 =>
        rcases List.mem_cons.mp h with hb | hb
        · left
          cases hf : all.filter
              (fun x => x.senderDomain == e.senderDomain && !proc.contains x.id) with
          | nil => rw [hf] at h5; simp at h5
          | cons y ys =>
            have hbe : b.email
                = ((all.filter (fun x =>
                    x.senderDomain == e.senderDomain && !proc.contains x.id)).headD e) := by
              rw [hb]
            rw [hbe, hf, List.headD_cons]
            have hy : y ∈ all.filter
                (fun x => x.senderDomain == e.senderDomain && !proc.contains x.id) := by
              rw [hf]; exact List.mem_cons_self _ _
            exact (List.mem_filter.mp hy).1
        · rcases ih _ _ hb with h' | h'
          · exact Or.inl h'
          · exact Or.inr (List.mem_cons_of_mem _ h')
      case isFalse h5 =>
        rcases List.mem_cons.mp h with hb | hb
        · right
          rw [hb]
          exact List.mem_cons_self _ _
        · rcases ih _ _ hb with h' | h'
          · exact Or.inl h'
          · exact Or.inr (List.mem_cons_of_mem _ h')

/-- A freshly resynchronized window is the grouped projection of the first
`windowSize` queue entries, is no longer than `windowSize`, and only carries
emails of the queue. -/
theorem syncWindow_inv (s : BufferState) :
    (syncWindow s).activeWindow
        = groupIntoBosses (((syncWindow s).fullQueue).take (syncWindow s).config.windowSize)
      ∧ ((syncWindow s).activeWindow).length ≤ (syncWindow s).config.windowSize
      ∧ ∀ b ∈ (syncWindow s).activeWindow, b.email ∈ (syncWindow s).fullQueue := by
  refine ⟨rfl, ?_, ?_⟩
  · calc (groupIntoBosses (s.fullQueue.take s.config.windowSize)).length
        ≤ (s.fullQueue.take s.config.windowSize).length := length_groupGo _ _ _
      _ ≤ s.config.windowSize := List.length_take_le _ _
  · intro b hb
    rcases mem_groupGo _ _ _ b hb with h | h
    · exact List.take_subset _ _ h
    · exact List.take_subset _ _ h

/-- The state after `consumeItem` is a `syncWindow` image, on the resolved and
on the rejected path alike. -/
theorem consumeItem_state (cb : Except Unit (List NormalizedEmail)) (id : String)
    (s : BufferState) : ∃ t, (consumeItem cb id s).2 = syncWindow t := by
  simp only [consumeItem]
  split
  · unfold refill
    cases cb with
    | ok items => exact ⟨_, rfl⟩
    | error u => exact ⟨_, rfl⟩
  · exact ⟨_, rfl⟩

/-- The state after `consumeBatch` is a `syncWindow` image. -/
theorem consumeBatch_state (cb : Except Unit (List NormalizedEmail)) (ids : List String)
    (s : BufferState) : ∃ t, (consumeBatch cb ids s).2 = syncWindow t := by
  simp only [consumeBatch]
  split
  · unfold refill
    cases cb with
    | ok items => exact ⟨_, rfl⟩
    | error u => exact ⟨_, rfl⟩
  · exact ⟨_, rfl⟩

/-- Every buffer operation leaves a freshly resynchronized state. -/
theorem stepOp_state (op : BufOp) (s : BufferState) : ∃ t, stepOp op s = syncWindow t := by
  cases op with
  | consumeOne cb id => exact consumeItem_state cb id s
  | consumeMany cb ids => exact consumeBatch_state cb ids s
  | add e idx => exact ⟨_, rfl⟩
  | nuke d => exact ⟨_, rfl⟩

/-- Any run of buffer operations from a resynchronized state ends in a
resynchronized state. -/
theorem runOps_state (ops : List BufOp) (s : BufferState)
    (h : ∃ t, s = syncWindow t) : ∃ t, runOps ops s = syncWindow t := by
  induction ops generalizing s with
  | nil => exact h
  | cons op ops ih => exact ih (stepOp op s) (stepOp_state op s)

end Buffer

/-- C7: after any sequence of consume/add/nuke operations on a constructed
buffer, the active window equals the grouped projection of the first
`windowSize` backing-queue entries, its length never exceeds `windowSize`, and
every window item's email is a real entry of the backing queue. -/
theorem buffer_window_invariant
    (ops : List Buffer.BufOp) (initial : List NormalizedEmail)
    (config : Buffer.BufferConfig) :
    (Buffer.runOps ops (Buffer.mkBuffer initial config)).activeWindow
        = Buffer.groupIntoBosses
            (((Buffer.runOps ops (Buffer.mkBuffer initial config)).fullQueue).take
              ((Buffer.runOps ops (Buffer.mkBuffer initial config)).config.windowSize))
      ∧ ((Buffer.runOps ops (Buffer.mkBuffer initial config)).activeWindow).length
          ≤ (Buffer.runOps ops (Buffer.mkBuffer initial config)).config.windowSize
      ∧ ∀ b ∈ (Buffer.runOps ops (Buffer.mkBuffer initial config)).activeWindow,
          b.email ∈ (Buffer.runOps ops (Buffer.mkBuffer initial config)).fullQueue := by
  obtain ⟨t, ht⟩ :=
    Buffer.runOps_state ops (Buffer.mkBuffer initial config) ⟨_, rfl⟩
  rw [ht]
  exact Buffer.syncWindow_inv t

def p0Fix : NormalizedEmail := mkTestEmail "p0" "a@q.example" "q.example"

def p4Fix : NormalizedEmail := mkTestEmail "p4" "a@d.example" "d.example"

def initialFix : List NormalizedEmail :=
  [mkTestEmail "p1" "a@a.example" "a.example", mkTestEmail "p2" "a@b.example" "b.example",
   mkTestEmail "p3" "a@c.example" "c.example"]

/-- A run exercising all four operation kinds, including a rejected refill. -/
def opsFix : List Buffer.BufOp :=
  [.add p0Fix 0, .nuke "a.example", .consumeOne (.ok [p4Fix]) "p0",
   .consumeMany (.error ()) ["p2"]]

/-- Witness for C7 at a concrete run of all four operation kinds. -/
theorem buffer_window_invariant_witness :
    (Buffer.runOps opsFix (Buffer.mkBuffer initialFix {})).activeWindow
        = Buffer.groupIntoBosses
            (((Buffer.runOps opsFix (Buffer.mkBuffer initialFix {})).fullQueue).take
              ((Buffer.runOps opsFix (Buffer.mkBuffer initialFix {})).config.windowSize))
      ∧ (mkTestEmail "p3" "a@c.example" "c.example")
          ∈ (Buffer.runOps opsFix (Buffer.mkBuffer initialFix {})).fullQueue :=
  ⟨(buffer_window_invariant opsFix initialFix {}).1,
   (buffer_window_invariant opsFix initialFix {}).2.2
     { email := mkTestEmail "p3" "a@c.example" "c.example" } (by decide)⟩

namespace Buffer

theorem contains_iff_mem (l : List String) (a : String) :
    l.contains a = true ↔ a ∈ l :=
  List.elem_iff

theorem contains_append_iff (l₁ l₂ : List String) (a : String) :
    (l₁ ++ l₂).contains a = true ↔ l₁.contains a = true ∨ l₂.contains a = true := by
  simp [contains_iff_mem, List.mem_append]

theorem sameDomAll_congr (all : List NormalizedEmail) {x e : NormalizedEmail}
    (h : x.senderDomain = e.senderDomain) :
    sameDomAll all x = sameDomAll all e := by
  unfold sameDomAll
  simp only [h]

/-- The bookkeeping invariant of the grouping scan: with `all = done ++ rest`,
an id is marked processed exactly when its email belongs to a collapsed (≥ 5)
domain whose first encounter lies in `done`, or is itself a small-domain email
already scanned. -/
def ProcInv (all done : List NormalizedEmail) (proc : List String) : Prop :=
  ∀ x ∈ all,
    (proc.contains x.id = true ↔
      (5 ≤ (sameDomAll all x).length ∧ ∃ y ∈ done, y.senderDomain = x.senderDomain)
        ∨ (¬ 5 ≤ (sameDomAll all x).length ∧ x ∈ done))

/-- The scan loop agrees with the specification-side `filterMap` description on
every suffix of the windowed slice, given the bookkeeping invariant. -/
theorem groupGo_eq_filterMap (all : List NormalizedEmail)
    (hnd : (all.map NormalizedEmail.id).Nodup) :
    ∀ (rest done : List NormalizedEmail) (proc : List String),
      all = done ++ rest → ProcInv all done proc →
      groupGo all rest proc = rest.filterMap (groupSpecF all) := by
  have hinj : ∀ x ∈ all, ∀ y ∈ all, x.id = y.id → x = y := by
    intro x hx y hy h
    exact List.inj_on_of_nodup_map hnd hx hy h
  intro rest
  induction rest with
  | nil => intro done proc _ _; rfl
  | cons e rest ih =>
    intro done proc hsplit hinv
    have heall : e ∈ all := by
      rw [hsplit]
      exact List.mem_append_right done (List.mem_cons_self e rest)
    have hidnotdone : e.id ∉ done.map NormalizedEmail.id := by
      have h2 : ((done ++ e :: rest).map NormalizedEmail.id).Nodup := by
        rw [← hsplit]; exact hnd
      rw [List.map_append] at h2
      rcases List.nodup_append.mp h2 with ⟨-, -, hdisj⟩
      intro hmem
      exact hdisj hmem (List.mem_map_of_mem _ (List.mem_cons_self e rest))
    have hedone : e ∉ done := fun hd => hidnotdone (List.mem_map_of_mem _ hd)
    have hsplit' : all = (done ++ [e]) ++ rest := by
      rw [hsplit, List.append_assoc]
      rfl
    by_cases hc : proc.contains e.id = true
    · -- already processed: both sides skip `e`
      have hbig : 5 ≤ (sameDomAll all e).length
          ∧ ∃ y ∈ done, y.senderDomain = e.senderDomain := by
        rcases (hinv e heall).mp hc with h | h
        · exact h
        · exact absurd h.2 hedone
      have hheaddone : ∃ h0, (sameDomAll all e).head? = some h0 ∧ h0 ∈ done := by
        obtain ⟨hb5, y, hy, hyd⟩ := hbig
        have hS : sameDomAll all e
            = done.filter (fun x => x.senderDomain == e.senderDomain)
              ++ (e :: rest).filter (fun x => x.senderDomain == e.senderDomain) := by
          unfold sameDomAll
          rw [hsplit, List.filter_append]
        cases hdf : done.filter (fun x => x.senderDomain == e.senderDomain) with
        | nil =>
          exfalso
          have hyf : y ∈ done.filter (fun x => x.senderDomain == e.senderDomain) :=
            List.mem_filter.mpr ⟨hy, by simp [hyd]⟩
          rw [hdf] at hyf
          exact List.not_mem_nil y hyf
        | cons h0 tl =>
          refine ⟨h0, ?_, ?_⟩
          · rw [hS, hdf]
            rfl
          · have hh : h0 ∈ done.filter (fun x => x.senderDomain == e.senderDomain) := by
              rw [hdf]
              exact List.mem_cons_self _ _
            exact (List.mem_filter.mp hh).1
      have hfe : groupSpecF all e = none := by
        obtain ⟨h0, hh0, hh0d⟩ := hheaddone
        have hne2 : (sameDomAll all e).head?.map NormalizedEmail.id ≠ some e.id := by
          rw [hh0]
          intro hcontra
          have hid : h0.id = e.id := by simpa using hcontra
          exact hidnotdone (hid ▸ List.mem_map_of_mem NormalizedEmail.id hh0d)
        simp only [groupSpecF]
        rw [if_pos hbig.1, if_neg hne2]
      have hinv' : ProcInv all (done ++ [e]) proc := by
        intro x hx
        constructor
        · intro hxc
          rcases (hinv x hx).mp hxc with ⟨hb, y, hy, hyd⟩ | ⟨hnb, hxd⟩
          · exact Or.inl ⟨hb, y, List.mem_append_left _ hy, hyd⟩
          · exact Or.inr ⟨hnb, List.mem_append_left _ hxd⟩
        · intro hr
          rcases hr with ⟨hb, y, hy, hyd⟩ | ⟨hnb, hxd⟩
          · rcases List.mem_append.mp hy with hy' | hy'
            · exact (hinv x hx).mpr (Or.inl ⟨hb, y, hy', hyd⟩)
            · have hye : y = e := by simpa using hy'
              subst hye
              obtain ⟨-, y0, hy0, hy0d⟩ := hbig
              exact (hinv x hx).mpr (Or.inl ⟨hb, y0, hy0, hy0d.trans hyd⟩)
          · rcases List.mem_append.mp hxd with hxd' | hxd'
            · exact (hinv x hx).mpr (Or.inr ⟨hnb, hxd'⟩)
            · have hxe : x = e := by simpa using hxd'
              subst hxe
              exact hc
      simp only [groupGo]
      rw [if_pos hc]
      simp only [List.filterMap_cons, hfe]
      exact ih (done ++ [e]) proc hsplit' hinv'
    · have hcf : proc.contains e.id = false := by
        cases hcc : proc.contains e.id
        · rfl
        · exact absurd hcc hc
      by_cases hb : 5 ≤ (sameDomAll all e).length
      · -- first encounter of a collapsed domain
        have hnone : ∀ y ∈ done, y.senderDomain ≠ e.senderDomain := by
          intro y hy hyd
          exact hc ((hinv e heall).mpr (Or.inl ⟨hb, y, hy, hyd⟩))
        have hunproc : ∀ x ∈ all, x.senderDomain = e.senderDomain →
            proc.contains x.id = false := by
          intro x hx hxd
          cases hcx : proc.contains x.id
          · rfl
          · exfalso
            rcases (hinv x hx).mp hcx with ⟨hbx, y, hy, hyd⟩ | ⟨hnbx, hxdone⟩
            · exact hnone y hy (hyd.trans hxd)
            · exact hnbx (by rw [sameDomAll_congr all hxd]; exact hb)
        have hSD : all.filter (fun x => x.senderDomain == e.senderDomain
              && !proc.contains x.id) = sameDomAll all e := by
          unfold sameDomAll
          apply List.filter_congr
          intro x hx
          cases hdx : (x.senderDomain == e.senderDomain) with
          | false => simp [hdx]
          | true =>
            have hxd : x.senderDomain = e.senderDomain := by simpa using hdx
            have hnc : x.id ∉ proc := by
              intro hmem
              have hcf2 := hunproc x hx hxd
              rw [(contains_iff_mem proc x.id).mpr hmem] at hcf2
              simp at hcf2
            simp [hnc]
        have hd0 : done.filter (fun x => x.senderDomain == e.senderDomain) = [] := by
          rw [List.filter_eq_nil_iff]
          intro y hy
          simpa using hnone y hy
        have hSe : sameDomAll all e
            = e :: rest.filter (fun x => x.senderDomain == e.senderDomain) := by
          unfold sameDomAll
          rw [hsplit, List.filter_append, hd0, List.nil_append,
            List.filter_cons_of_pos (by simp)]
        have hhead : (sameDomAll all e).head? = some e := by
          rw [hSe]
          rfl
        have hfe : groupSpecF all e
            = some { email := (sameDomAll all e).headD e, isBossField := true,
                     groupCount := some (sameDomAll all e).length } := by
          simp only [groupSpecF]
          rw [if_pos hb, if_pos (by rw [hhead]; rfl)]
        have hinv' : ProcInv all (done ++ [e])
            (proc ++ (sameDomAll all e).map NormalizedEmail.id) := by
          intro x hx
          constructor
          · intro hxc
            rcases (contains_append_iff _ _ _).mp hxc with hxp | hxs
            · rcases (hinv x hx).mp hxp with ⟨hbx, y, hy, hyd⟩ | ⟨hnbx, hxd⟩
              · exact Or.inl ⟨hbx, y, List.mem_append_left _ hy, hyd⟩
              · exact Or.inr ⟨hnbx, List.mem_append_left _ hxd⟩
            · have hex : ∃ z ∈ sameDomAll all e, z.id = x.id := by
                simpa [contains_iff_mem, List.mem_map] using hxs
              obtain ⟨z, hz, hzid⟩ := hex
              have hzall : z ∈ all := (List.mem_filter.mp hz).1
              have hzx : z = x := hinj z hzall x hx hzid
              subst hzx
              have hzd : z.senderDomain = e.senderDomain := by
                have hmemf := (List.mem_filter.mp hz).2
                simpa using hmemf
              refine Or.inl ⟨?_, e,
                List.mem_append_right _ (List.mem_cons_self e []), hzd.symm⟩
              rw [sameDomAll_congr all hzd]
              exact hb
          · intro hr
            rcases hr with ⟨hbx, y, hy, hyd⟩ | ⟨hnbx, hxd⟩
            · rcases List.mem_append.mp hy with hy' | hy'
              · exact (contains_append_iff _ _ _).mpr
                  (Or.inl ((hinv x hx).mpr (Or.inl ⟨hbx, y, hy', hyd⟩)))
              · have hye : y = e := by simpa using hy'
                subst hye
                apply (contains_append_iff _ _ _).mpr
                refine Or.inr ?_
                rw [contains_iff_mem]
                exact List.mem_map_of_mem _
                  (List.mem_filter.mpr ⟨hx, by simp [hyd.symm]⟩)
            · rcases List.mem_append.mp hxd with hxd' | hxd'
              · exact (contains_append_iff _ _ _).mpr
                  (Or.inl ((hinv x hx).mpr (Or.inr ⟨hnbx, hxd'⟩)))
              · have hxe : x = e := by simpa using hxd'
                subst hxe
                exact absurd hb hnbx
        simp only [groupGo]
        rw [if_neg hc, hSD, if_pos hb]
        simp only [List.filterMap_cons, hfe]
        congr 1
        exact ih (done ++ [e]) _ hsplit' hinv'
      · -- scanned member of a small domain: emitted as a singleton
        have hsdsub : all.filter (fun x => x.senderDomain == e.senderDomain
              && !proc.contains x.id)
            = (sameDomAll all e).filter (fun x => !proc.contains x.id) := by
          unfold sameDomAll
          rw [List.filter_filter]
          apply List.filter_congr
          intro x hx
          exact Bool.and_comm _ _
        have hlt : ¬ 5 ≤ (all.filter (fun x => x.senderDomain == e.senderDomain
              && !proc.contains x.id)).length := by
          intro h5
          apply hb
          calc 5 ≤ (all.filter (fun x => x.senderDomain == e.senderDomain
                && !proc.contains x.id)).length := h5
            _ ≤ (sameDomAll all e).length := by
              rw [hsdsub]
              exact List.length_filter_le _ _
        have hfe : groupSpecF all e = some { email := e } := by
          simp only [groupSpecF]
          rw [if_neg hb]
        have hinv' : ProcInv all (done ++ [e]) (proc ++ [e.id]) := by
          intro x hx
          constructor
          · intro hxc
            rcases (contains_append_iff _ _ _).mp hxc with hxp | hxe
            · rcases (hinv x hx).mp hxp with ⟨hbx, y, hy, hyd⟩ | ⟨hnbx, hxd⟩
              · exact Or.inl ⟨hbx, y, List.mem_append_left _ hy, hyd⟩
              · exact Or.inr ⟨hnbx, List.mem_append_left _ hxd⟩
            · have hid : x.id = e.id := by simpa [contains_iff_mem] using hxe
              have hxe' : x = e := hinj x hx e heall hid
              subst hxe'
              exact Or.inr ⟨hb, List.mem_append_right _ (List.mem_cons_self _ [])⟩
          · intro hr
            rcases hr with ⟨hbx, y, hy, hyd⟩ | ⟨hnbx, hxd⟩
            · rcases List.mem_append.mp hy with hy' | hy'
              · exact (contains_append_iff _ _ _).mpr
                  (Or.inl ((hinv x hx).mpr (Or.inl ⟨hbx, y, hy', hyd⟩)))
              · have hye : y = e := by simpa using hy'
                subst hye
                exfalso
                apply hb
                rw [sameDomAll_congr all hyd]
                exact hbx
            · rcases List.mem_append.mp hxd with hxd' | hxd'
              · exact (contains_append_iff _ _ _).mpr
                  (Or.inl ((hinv x hx).mpr (Or.inr ⟨hnbx, hxd'⟩)))
              · have hxe' : x = e := by simpa using hxd'
                subst hxe'
                exact (contains_append_iff _ _ _).mpr
                  (Or.inr (by rw [contains_iff_mem]; exact List.mem_cons_self _ []))
        simp only [groupGo]
        rw [if_neg hc, if_neg hlt]
        simp only [List.filterMap_cons, hfe]
        congr 1
        exact ih (done ++ [e]) _ hsplit' hinv'

/-- C6: under the data-model assumption that queue entries carry pairwise
distinct ids, the scan-based grouping coincides with the specification-side
description: every same-domain set of cardinality at least 5 yields exactly one
collapsed item at its first encounter, carrying the set's first member as
representative and the cardinality as count; smaller sets yield singletons;
emission follows first-encounter order. -/
theorem grouping_matches_spec (emails : List NormalizedEmail)
    (hnd : (emails.map NormalizedEmail.id).Nodup) :
    groupIntoBosses emails = groupSpec emails := by
  unfold groupIntoBosses groupSpec
  apply groupGo_eq_filterMap emails hnd emails [] [] rfl
  intro x hx
  constructor
  · intro h
    simp at h
  · intro h
    rcases h with ⟨-, y, hy, -⟩ | ⟨-, hx'⟩
    · exact absurd hy (List.not_mem_nil y)
    · exact absurd hx' (List.not_mem_nil x)

end Buffer

/-- The spec's concrete grouping scenario: five co-windowed items of domain
`a.example` interleaved with four of domain `b.example`. -/
def bossExample : List NormalizedEmail :=
  [mkTestEmail "a1" "s@a.example" "a.example", mkTestEmail "a2" "s@a.example" "a.example",
   mkTestEmail "b1" "s@b.example" "b.example", mkTestEmail "a3" "s@a.example" "a.example",
   mkTestEmail "b2" "s@b.example" "b.example", mkTestEmail "a4" "s@a.example" "a.example",
   mkTestEmail "b3" "s@b.example" "b.example", mkTestEmail "a5" "s@a.example" "a.example",
   mkTestEmail "b4" "s@b.example" "b.example"]

/-- Witness for C6: the 5-of-A / 4-of-B window groups into exactly one
collapsed item (count 5, represented by the first A item) followed by the four
B singletons, in first-encounter order. -/
theorem grouping_matches_spec_witness :
    Buffer.groupIntoBosses bossExample = Buffer.groupSpec bossExample
      ∧ Buffer.groupIntoBosses bossExample
          = [{ email := mkTestEmail "a1" "s@a.example" "a.example", isBossField := true,
               groupCount := some 5 },
             { email := mkTestEmail "b1" "s@b.example" "b.example" },
             { email := mkTestEmail "b2" "s@b.example" "b.example" },
             { email := mkTestEmail "b3" "s@b.example" "b.example" },
             { email := mkTestEmail "b4" "s@b.example" "b.example" }] :=
  ⟨Buffer.grouping_matches_spec bossExample (by decide), by decide⟩

end SwipeThem
